import Mathlib

/-!
Verification development for the bloqz core package.

This file gives a shallow embedding of `packages/core/src/utils/create.ts`
(the `createBloc` and `createPipeBloc` factories) together with the
concurrency transformers of `packages/concurrency/src/utils`
(`restartable` = rxjs `switchMap`, `droppable` = rxjs `exhaustMap`,
`sequential` = rxjs `concatMap`, default/`concurrent` = rxjs `mergeMap`),
and proves theorems about the resulting model.

Modelling conventions, used throughout:

* `St`, `Ev`, `Err` are the state, event and error types.  Equality on
  `St` (`DecidableEq St`) models JavaScript reference identity (`===`):
  two distinct Lean values model two distinct references, even when a
  "payload" component is equal (that is what makes dedup identity-based
  rather than deep).
* The rxjs subjects are modelled by explicit fields: `stateVal` is the
  `BehaviorSubject` current value, `stateLog` is the list of values it
  has pushed to subscribers (via `next`) since construction, `errorsLog`
  is the list of records pushed on the `_errorSubject`, and the
  `...Completed` flags record that `complete()` was called.  A
  `Subject.next` after `complete` delivers nothing, hence the guards.
* Handler executions are wrapped by the source in
  `from(Promise.resolve().then(() => config.handler(event, context)))`,
  so the handler body always runs in a later microtask, never during
  `add`.  The machine models the microtask queue by the `pending` list:
  `add` (through the synchronous part of the pipeline: `map` classify,
  `groupBy`, `mergeMap`, the default `mergeMap(project)` transformer)
  only enqueues the execution; `runNext` runs the queued execution.
* A handler body is modelled by `HProg`: a finite interleaving of
  `context.update` calls, reads of the `context.value` getter (which in
  the source is `get value() { return _stateSubject.getValue() }`, a
  read of the subject at the moment of the access), a normal return, or
  a throw/rejection.
-/

/-- An argument to `updateState` in `create.ts`: either a direct new
state value or a function of the current state
(`State | ((currentState: State) => State)`). -/
inductive StUpdate (St : Type) where
  | value (s : St)
  | fn (f : St → St)

/-- Evaluation of an `StUpdate`, mirroring
`typeof newValueOrFn === "function" ? newValueOrFn(currentState) : newValueOrFn`. -/
def applyUpdate {St : Type} : StUpdate St → St → St
  | .value s, _ => s
  | .fn f, s => f s

/-- Diagnostic console output produced by the bloc, one constructor per
`console.warn` / `console.error` site in `create.ts`. -/
inductive Diag (Ev : Type) where
  | addAfterClose
  | updateAfterClose
  | unhandled (e : Ev)
  | handlerError
  | streamError
  deriving DecidableEq

/-- A handler body (the user-supplied `EventHandler` function applied to
one event), as the finite sequence of its interactions with the
`BlocContext`: `update` calls, reads of the live `value` getter, normal
completion, or a thrown error / rejected promise. -/
inductive HProg (St Err : Type) where
  | done
  | fail (err : Err)
  | update (u : StUpdate St) (k : HProg St Err)
  | read (k : St → HProg St Err)

/-- One entry of the internal handler registry
(`interface HandlerConfig` in `create.ts`): the match predicate, the
handler body for a given event, and the registration key
(`eventTypeIdentifier`).  The registry itself is a `List` in
registration order, mirroring `Map.values()` insertion-order iteration
over `_handlerRegistry`. -/
structure HandlerConfig (Ev St Err : Type) where
  predicate : Ev → Bool
  handler : Ev → HProg St Err
  eventTypeIdentifier : String

/-- The observable state of one `createBloc` unit: the closure-held
subjects, flags and registry of `create.ts`, plus the queue of handler
executions already scheduled as microtasks (`pending`) and logs of the
externally visible outputs (subject emissions, `onError` callback
invocations, console diagnostics). -/
structure Machine (Ev St Err : Type) where
  stateVal : St
  stateLog : List St
  stateCompleted : Bool
  errorsLog : List (Option Ev × Err)
  errorsCompleted : Bool
  onErrorLog : List (Err × Option Ev)
  warnLog : List (Diag Ev)
  isClosed : Bool
  subscribed : Bool
  registry : List (HandlerConfig Ev St Err)
  pending : List (Ev × HandlerConfig Ev St Err)

/-- The machine produced by `createBloc(props)`: fresh subjects, the
`BehaviorSubject` seeded with `initialState`, the registry built from
`Object.entries(handlers)` in property order, the pipeline subscription
active, and `_isClosed = false`. -/
def createBlocM {Ev St Err : Type} (initialState : St)
    (registry : List (HandlerConfig Ev St Err)) : Machine Ev St Err :=
  { stateVal := initialState
    stateLog := []
    stateCompleted := false
    errorsLog := []
    errorsCompleted := false
    onErrorLog := []
    warnLog := []
    isClosed := false
    subscribed := true
    registry := registry
    pending := [] }

/-- The `updateState` closure of `create.ts`: warn and do nothing when
closed; otherwise compute `nextState` from the current value and call
`_stateSubject.next(nextState)` only when `nextState !== currentState`
(identity comparison, modelled by decidable equality on `St`). -/
def updateState {Ev St Err : Type} [DecidableEq St] (u : StUpdate St)
    (m : Machine Ev St Err) : Machine Ev St Err :=
  if m.isClosed then
    { m with warnLog := m.warnLog ++ [Diag.updateAfterClose] }
  else
    let currentState := m.stateVal
    let nextState := applyUpdate u currentState
    if nextState = currentState then m
    else { m with stateVal := nextState, stateLog := m.stateLog ++ [nextState] }

/-- Step 1 of the dispatch pipeline (the `map` operator in
`create.ts`): scan `_handlerRegistry.values()` in insertion order and
return the first config whose predicate accepts the event, or `none`
for an unhandled event. -/
def classify {Ev St Err : Type} (registry : List (HandlerConfig Ev St Err))
    (e : Ev) : Option (HandlerConfig Ev St Err) :=
  registry.find? (fun config => config.predicate e)

/-- The `add` method plus the synchronous part of the dispatch
pipeline that `_eventSubject.next(event)` drives: when closed, warn and
drop the event; when the event matches no registry entry, the unhandled
group warns (`tap`) and discards (`mergeMap(() => EMPTY)`); when it
matches, the default transformer (`mergeMap(project)`) calls `project`
which schedules the handler body on the microtask queue via
`Promise.resolve().then(...)` — the body itself never runs during
`add`. -/
def add {Ev St Err : Type} (e : Ev) (m : Machine Ev St Err) : Machine Ev St Err :=
  if m.isClosed then
    { m with warnLog := m.warnLog ++ [Diag.addAfterClose] }
  else
    match classify m.registry e with
    | none => { m with warnLog := m.warnLog ++ [Diag.unhandled e] }
    | some config => { m with pending := m.pending ++ [(e, config)] }

/-- Execution of a handler body against the machine.  An `update` step
goes through `updateState`; a `read` step returns
`_stateSubject.getValue()` at the moment of the read (the context
`value` member is a live getter in `create.ts`, not a stored
snapshot); the result is the machine after all side effects together
with the error, if the body threw or rejected. -/
def runProg {Ev St Err : Type} [DecidableEq St] :
    HProg St Err → Machine Ev St Err → Machine Ev St Err × Option Err
  | .done, m => (m, none)
  | .fail err, m => (m, some err)
  | .update u k, m => runProg k (updateState u m)
  | .read k, m => runProg (k m.stateVal) m

/-- The list of values the live `context.value` getter returns during
one handler execution, in order of the reads. -/
def progReads {Ev St Err : Type} [DecidableEq St] :
    HProg St Err → Machine Ev St Err → List St
  | .done, _ => []
  | .fail _, _ => []
  | .update u k, m => progReads k (updateState u m)
  | .read k, m => m.stateVal :: progReads (k m.stateVal) m

/-- One complete (deferred) handler execution for a matched event: the
`project` function of `create.ts`.  A normal return leaves only the
body's own effects; a thrown error is caught by the per-execution
`catchError`, which logs (`console.error`), invokes the global
`onError` callback, pushes `{event, error}` on `_errorSubject` (a
no-op if that subject has completed) and swallows the error by
returning `EMPTY`, so the shared pipeline is untouched. -/
def runEvent {Ev St Err : Type} [DecidableEq St] (e : Ev)
    (config : HandlerConfig Ev St Err) (m : Machine Ev St Err) : Machine Ev St Err :=
  match runProg (config.handler e) m with
  | (m1, none) => m1
  | (m1, some err) =>
    { m1 with
      warnLog := m1.warnLog ++ [Diag.handlerError]
      onErrorLog := m1.onErrorLog ++ [(err, some e)]
      errorsLog :=
        if m1.errorsCompleted then m1.errorsLog
        else m1.errorsLog ++ [(some e, err)] }

/-- Drain one entry of the microtask queue: run the earliest scheduled
handler execution. -/
def runNext {Ev St Err : Type} [DecidableEq St] (m : Machine Ev St Err) :
    Machine Ev St Err :=
  match m.pending with
  | [] => m
  | (e, config) :: rest => runEvent e config { m with pending := rest }

/-- The `close` method of `create.ts`: a second call returns at the
guard; the first call flips `_isClosed`, unsubscribes the dispatch
pipeline, completes the state, event and error subjects, and clears
the handler registry.  The current state value is retained, so the
synchronous `state` getter keeps answering. -/
def close {Ev St Err : Type} (m : Machine Ev St Err) : Machine Ev St Err :=
  if m.isClosed then m
  else
    { m with
      isClosed := true
      subscribed := false
      stateCompleted := true
      errorsCompleted := true
      registry := [] }

/-- The outer `catchError` of the dispatch pipeline in `create.ts`: an
error escaping the classify/partition/strategy machinery is logged
(`console.error`), reported to the global callback and on
`_errorSubject` with `event = undefined` (modelled as `none`), and the
unit is closed. -/
def streamFail {Ev St Err : Type} (err : Err) (m : Machine Ev St Err) :
    Machine Ev St Err :=
  close
    { m with
      warnLog := m.warnLog ++ [Diag.streamError]
      onErrorLog := m.onErrorLog ++ [(err, none)]
      errorsLog :=
        if m.errorsCompleted then m.errorsLog
        else m.errorsLog ++ [(none, err)] }

/-- An externally triggerable operation on a unit: event dispatch, a
state update issued by some running handler, draining one scheduled
handler execution, `close()`, or a pipeline-level stream error. -/
inductive MOp (Ev St Err : Type) where
  | addEv (e : Ev)
  | upd (u : StUpdate St)
  | runTask
  | closeOp
  | streamErr (err : Err)

/-- Application of one operation to the machine. -/
def applyOp {Ev St Err : Type} [DecidableEq St] :
    MOp Ev St Err → Machine Ev St Err → Machine Ev St Err
  | .addEv e, m => add e m
  | .upd u, m => updateState u m
  | .runTask, m => runNext m
  | .closeOp, m => close m
  | .streamErr err, m => streamFail err m

/-- Application of a sequence of operations, first to last. -/
def runOps {Ev St Err : Type} [DecidableEq St] (ops : List (MOp Ev St Err))
    (m : Machine Ev St Err) : Machine Ev St Err :=
  ops.foldl (fun acc op => applyOp op acc) m

/-- State-subject emissions that happen strictly after the moment
captured by `before`, given the machine `after` reached later. -/
def newEmissions {Ev St Err : Type} (before after : Machine Ev St Err) : List St :=
  after.stateLog.drop before.stateLog.length

/-- Modelled from the spec: `stream.js`, the module of rxjs re-exports
used by `create.ts`, is not under `src/`; the `BehaviorSubject`
replay-of-one contract it provides is, per the spec, that a new
subscriber "immediately emits the current value before any subsequent
change".  `subscribeState m ops` is everything a subscriber receives
who subscribes to `state$` at machine `m` and then watches the
operations `ops` happen: the immediate replay of the current value,
followed by the emissions those operations produce. -/
def subscribeState {Ev St Err : Type} [DecidableEq St] (m : Machine Ev St Err)
    (ops : List (MOp Ev St Err)) : List St :=
  m.stateVal :: newEmissions m (runOps ops m)

/-!
Embedding of `createPipeBloc` (the source-driven variant of
`create.ts`).  Its `_sourceSubscription` forwards every source value
straight to `_stateSubject.next(value)` — it does not go through
`updateState` and performs no comparison with the current value.
-/

/-- The observable state of one `createPipeBloc` unit. -/
structure PipeMachine (St : Type) where
  stateVal : St
  stateLog : List St
  stateCompleted : Bool
  isClosed : Bool
  sourceSubscribed : Bool
  warnedAdd : Nat

/-- The machine produced by `createPipeBloc(props)`: the
`BehaviorSubject` seeded with `props.initialState` and the source
subscription active. -/
def createPipeBlocM {St : Type} (initialState : St) : PipeMachine St :=
  { stateVal := initialState
    stateLog := []
    stateCompleted := false
    isClosed := false
    sourceSubscribed := true
    warnedAdd := 0 }

/-- The `next` callback of `_sourceSubscription` in `createPipeBloc`:
`(value) => _stateSubject.next(value)`.  It runs only while the source
subscription is alive, and pushes the value unconditionally — there is
no identity comparison against the current state. -/
def sourceNext {St : Type} (v : St) (m : PipeMachine St) : PipeMachine St :=
  if m.sourceSubscribed then
    { m with stateVal := v, stateLog := m.stateLog ++ [v] }
  else m

/-- The `close` method of `createPipeBloc`: guard on `_isClosed`, then
unsubscribe from the source and complete the state subject. -/
def pipeClose {St : Type} (m : PipeMachine St) : PipeMachine St :=
  if m.isClosed then m
  else
    { m with
      isClosed := true
      sourceSubscribed := false
      stateCompleted := true }

/-- The `add` method of `createPipeBloc`: a no-op that warns while the
unit is open. -/
def pipeAdd {St : Type} (m : PipeMachine St) : PipeMachine St :=
  if m.isClosed then m else { m with warnedAdd := m.warnedAdd + 1 }

/-!
Embedding of the `restartable` (latest-wins) strategy for one
identifier group.  `restartable()` is `(project) => switchMap(project)`
(`packages/concurrency/src/utils/restartable.ts`), and `project` wraps
the handler in `from(Promise.resolve().then(() => handler(event,
context)))`.  What `switchMap` does on a new source event is
unsubscribe from the previous inner observable; unsubscribing from
`from(promise)` only stops the delivery of the promise's eventual
value/completion to the pipeline — the promise chain itself keeps
running, and any `context.update` calls the handler makes go directly
through `updateState`, which consults no cancellation token.

The model: each dispatched event spawns a task (the handler's promise
chain) holding a list of pending `update` steps, each step separated
from the next by an awaited asynchronous boundary, so any interleaving
of steps of different tasks is schedulable.  `current` is the inner
observable `switchMap` is currently subscribed to; a completion is
delivered downstream (recorded in `observedDone`) only if the
completing task is still the current one.  Tasks are never removed or
stopped by a dispatch — only observation changes.
-/

/-- One latest-wins identifier group: the state cell value, the live
promise-chain tasks (id, remaining update steps), the inner observable
`switchMap` is subscribed to, the next fresh task id, and the task
completions actually delivered downstream. -/
structure RMachine (St : Type) where
  stateVal : St
  tasks : List (Nat × List (St → St))
  current : Option Nat
  nextId : Nat
  observedDone : List Nat

/-- A fresh latest-wins group over initial state `s`. -/
def rInit {St : Type} (s : St) : RMachine St :=
  { stateVal := s, tasks := [], current := none, nextId := 0, observedDone := [] }

/-- Dispatch of one event to the group: `switchMap` unsubscribes from
the previous inner observable (the superseded task stops being
`current`, so its later emissions and completion are ignored) and
subscribes to the new one.  The superseded task itself stays in
`tasks`: its promise chain is not cancelled. -/
def rDispatch {St : Type} (script : List (St → St)) (m : RMachine St) : RMachine St :=
  { m with
    tasks := m.tasks ++ [(m.nextId, script)]
    current := some m.nextId
    nextId := m.nextId + 1 }

/-- The scheduler resumes task `i` past its next awaited boundary: the
task's next `context.update` call runs (directly against the state
cell — nothing consults `current`), and if that was the task's last
step the task completes; the completion reaches the pipeline only if
the task is still the subscribed inner observable. -/
def rStep {St : Type} (i : Nat) (m : RMachine St) : RMachine St :=
  match m.tasks.find? (fun t => t.1 == i) with
  | none => m
  | some (_, []) => { m with tasks := m.tasks.filter (fun t => t.1 != i) }
  | some (_, f :: rest) =>
    if rest.isEmpty then
      { m with
        stateVal := f m.stateVal
        tasks := m.tasks.filter (fun t => t.1 != i)
        observedDone :=
          if m.current = some i then m.observedDone ++ [i] else m.observedDone
        current := if m.current = some i then none else m.current }
    else
      { m with
        stateVal := f m.stateVal
        tasks := m.tasks.map (fun t => if t.1 == i then (i, rest) else t) }

/-!
Concrete instances used by the witness theorems below.  Events and
errors are coded as `Nat` and `String`; states as `Nat`, or as
`Nat × Nat` pairs whose first component plays the role of the object
reference and whose second component is a payload (so two states can be
"deeply equal" yet reference-distinct).
-/

/-- A registry entry whose handler always throws. -/
def cfgFailW : HandlerConfig Nat Nat String :=
  { predicate := fun e => e == 1
    handler := fun _ => .fail "boom"
    eventTypeIdentifier := "FAIL" }

/-- A registry entry whose handler updates the state to `5`. -/
def cfgOkW : HandlerConfig Nat Nat String :=
  { predicate := fun e => e == 2
    handler := fun _ => .update (.value 5) .done
    eventTypeIdentifier := "OK" }

/-- A second registry entry that also accepts event `1`, registered
after `cfgFailW`; used to check first-match routing. -/
def cfgShadowW : HandlerConfig Nat Nat String :=
  { predicate := fun e => e == 1
    handler := fun _ => .update (.value 99) .done
    eventTypeIdentifier := "SHADOW" }

/-- A unit with a throwing handler and a normal handler. -/
def mC1 : Machine Nat Nat String := createBlocM 0 [cfgFailW, cfgOkW]

/-- A unit with two entries whose predicates both accept event `1`. -/
def mC2 : Machine Nat Nat String := createBlocM 0 [cfgFailW, cfgShadowW, cfgOkW]

/-- A unit whose states are (reference, payload) pairs. -/
def mC6 : Machine Unit (Nat × Nat) Unit := createBlocM (1, 42) []

/-- A handler body that reads `context.value`, updates the state with
`s => s + 1`, and reads `context.value` again. -/
def probeProg : HProg Nat String :=
  .read fun _ => .update (.fn fun s => s + 1) (.read fun _ => .done)

/-- A unit used to observe the probe handler's context reads. -/
def mC4 : Machine Unit Nat String := createBlocM 0 []

/-- A registry entry whose handler increments the state. -/
def cfgIncW : HandlerConfig Nat Nat String :=
  { predicate := fun e => e == 3
    handler := fun _ => .update (.fn fun s => s + 1) .done
    eventTypeIdentifier := "INC" }

/-- A unit with a single synchronous incrementing handler. -/
def mC10 : Machine Nat Nat String := createBlocM 0 [cfgIncW]

/-!
Helper lemmas shared by the claim theorems.
-/

/-- Fields of the machine that `updateState` never touches. -/
theorem updateState_frame {Ev St Err : Type} [DecidableEq St] (u : StUpdate St)
    (m : Machine Ev St Err) :
    (updateState u m).errorsLog = m.errorsLog ∧
    (updateState u m).errorsCompleted = m.errorsCompleted ∧
    (updateState u m).onErrorLog = m.onErrorLog ∧
    (updateState u m).isClosed = m.isClosed ∧
    (updateState u m).subscribed = m.subscribed ∧
    (updateState u m).registry = m.registry ∧
    (updateState u m).pending = m.pending ∧
    (updateState u m).stateCompleted = m.stateCompleted := by
  by_cases h : m.isClosed
  · simp [updateState, h]
  · by_cases h2 : applyUpdate u m.stateVal = m.stateVal <;>
      simp [updateState, h, h2]

/-- Fields of the machine that a handler body cannot touch. -/
theorem runProg_frame {Ev St Err : Type} [DecidableEq St] (p : HProg St Err) :
    ∀ m : Machine Ev St Err,
      (runProg p m).1.errorsLog = m.errorsLog ∧
      (runProg p m).1.errorsCompleted = m.errorsCompleted ∧
      (runProg p m).1.onErrorLog = m.onErrorLog ∧
      (runProg p m).1.isClosed = m.isClosed ∧
      (runProg p m).1.subscribed = m.subscribed ∧
      (runProg p m).1.registry = m.registry ∧
      (runProg p m).1.pending = m.pending ∧
      (runProg p m).1.stateCompleted = m.stateCompleted := by
  induction p with
  | done => intro m; simp [runProg]
  | fail err => intro m; simp [runProg]
  | update u k ih =>
    intro m
    obtain ⟨h1, h2, h3, h4, h5, h6, h7, h8⟩ := updateState_frame u m
    obtain ⟨g1, g2, g3, g4, g5, g6, g7, g8⟩ := ih (updateState u m)
    exact ⟨by rw [runProg]; rw [g1, h1], by rw [runProg]; rw [g2, h2],
      by rw [runProg]; rw [g3, h3], by rw [runProg]; rw [g4, h4],
      by rw [runProg]; rw [g5, h5], by rw [runProg]; rw [g6, h6],
      by rw [runProg]; rw [g7, h7], by rw [runProg]; rw [g8, h8]⟩
  | read k ih =>
    intro m
    simpa [runProg] using ih m.stateVal m

/-- Characterisation of a handler execution whose body threw: the
per-execution `catchError` branch of `project`. -/
theorem runEvent_error {Ev St Err : Type} [DecidableEq St] (e : Ev)
    (config : HandlerConfig Ev St Err) (m m1 : Machine Ev St Err) (err : Err)
    (hrun : runProg (config.handler e) m = (m1, some err)) :
    runEvent e config m =
      { m1 with
        warnLog := m1.warnLog ++ [Diag.handlerError]
        onErrorLog := m1.onErrorLog ++ [(err, some e)]
        errorsLog :=
          if m1.errorsCompleted then m1.errorsLog
          else m1.errorsLog ++ [(some e, err)] } := by
  unfold runEvent
  rw [hrun]

/-- Fields of the machine that one handler execution (including its
error handling) never touches. -/
theorem runEvent_frame {Ev St Err : Type} [DecidableEq St] (e : Ev)
    (config : HandlerConfig Ev St Err) (m : Machine Ev St Err) :
    (runEvent e config m).isClosed = m.isClosed ∧
    (runEvent e config m).subscribed = m.subscribed ∧
    (runEvent e config m).registry = m.registry ∧
    (runEvent e config m).pending = m.pending ∧
    (runEvent e config m).stateCompleted = m.stateCompleted := by
  have hf := @runProg_frame Ev St Err _ (config.handler e) m
  unfold runEvent
  rcases hr : runProg (config.handler e) m with ⟨m1, res⟩
  rw [hr] at hf
  cases res <;> simp_all

/-- Record update with an unchanged field collapses. -/
theorem machine_eta_pending {Ev St Err : Type} (m : Machine Ev St Err)
    (h : m.pending = []) :
    ({ m with pending := [] } : Machine Ev St Err) = m := by
  cases m
  simp_all

/-- The synchronous effect of dispatching a matched event while open:
the handler execution is queued, nothing else changes. -/
theorem add_open_matched {Ev St Err : Type} (m : Machine Ev St Err) (e : Ev)
    (config : HandlerConfig Ev St Err) (hopen : m.isClosed = false)
    (hcls : classify m.registry e = some config) :
    add e m = { m with pending := m.pending ++ [(e, config)] } := by
  unfold add
  rw [hopen, hcls]
  simp

/-- With an empty microtask queue, draining after a matched dispatch
runs exactly that event's handler execution. -/
theorem runNext_add {Ev St Err : Type} [DecidableEq St] (m : Machine Ev St Err)
    (e : Ev) (config : HandlerConfig Ev St Err) (hopen : m.isClosed = false)
    (hcls : classify m.registry e = some config) (hpend : m.pending = []) :
    runNext (add e m) = runEvent e config m := by
  rw [add_open_matched m e config hopen hcls, hpend]
  show runEvent e config { m with pending := [] } = runEvent e config m
  rw [machine_eta_pending m hpend]

/-- Closing always leaves the machine closed, whatever its state was. -/
theorem close_closed {Ev St Err : Type} (m : Machine Ev St Err) :
    (close m).isClosed = true := by
  by_cases h : m.isClosed <;> simp [close, h]

/-- No operation of the unit clears the closed flag. -/
theorem applyOp_preserves_closed {Ev St Err : Type} [DecidableEq St]
    (op : MOp Ev St Err) (m : Machine Ev St Err) (h : m.isClosed = true) :
    (applyOp op m).isClosed = true := by
  cases op with
  | addEv e => simp [applyOp, add, h]
  | upd u => rw [applyOp, (updateState_frame u m).2.2.2.1, h]
  | runTask =>
    rw [applyOp]
    unfold runNext
    rcases hp : m.pending with _ | ⟨⟨e, config⟩, rest⟩
    · exact h
    · rw [(runEvent_frame e config _).1]
      exact h
  | closeOp => exact close_closed m
  | streamErr err => exact close_closed _

/-- A successful `find?` returns the first element satisfying the
predicate: everything registered before it rejects the input. -/
theorem find?_first_match {α : Type} (p : α → Bool) :
    ∀ (l : List α) (a : α), l.find? p = some a →
      p a = true ∧ ∃ l1 l2, l = l1 ++ a :: l2 ∧ ∀ b ∈ l1, p b = false := by
  intro l
  induction l with
  | nil => intro a h; simp [List.find?] at h
  | cons x xs ih =>
    intro a h
    by_cases hx : p x
    · rw [List.find?_cons_of_pos _ hx, Option.some_inj] at h
      subst h
      exact ⟨hx, [], xs, rfl, by simp⟩
    · rw [List.find?_cons_of_neg _ hx] at h
      obtain ⟨hpa, l1, l2, heq, hall⟩ := ih a h
      refine ⟨hpa, x :: l1, l2, by rw [heq]; rfl, ?_⟩
      intro b hb
      rcases List.mem_cons.mp hb with hb | hb
      · rw [hb]
        exact Bool.eq_false_iff.mpr hx
      · exact hall b hb

/-!
Claim theorems.
-/

/-- C9.  Every new subscriber to `state$` immediately receives the
current state value upon subscription, before any subsequent change;
in particular a subscriber to a freshly constructed unit on which no
event was ever dispatched and no update ever ran receives exactly the
initial state. -/
theorem state_replays_current_on_subscribe {Ev St Err : Type} [DecidableEq St]
    (m : Machine Ev St Err) (ops : List (MOp Ev St Err)) (s0 : St)
    (registry : List (HandlerConfig Ev St Err)) :
    (subscribeState m ops).head? = some m.stateVal ∧
    subscribeState (createBlocM s0 registry) ([] : List (MOp Ev St Err)) = [s0] := by
  exact ⟨rfl, by simp [subscribeState, newEmissions, runOps, createBlocM]⟩

/-- C6.  While the unit is open, `updateState` installs the computed
value as the new state, and `state$` re-emits exactly once if and only
if that value is not reference-identical (`===`, modelled by equality)
to the current state. -/
theorem update_identity_dedup {Ev St Err : Type} [DecidableEq St]
    (m : Machine Ev St Err) (u : StUpdate St) (hopen : m.isClosed = false) :
    (updateState u m).stateVal = applyUpdate u m.stateVal ∧
    (applyUpdate u m.stateVal ≠ m.stateVal →
      (updateState u m).stateLog = m.stateLog ++ [applyUpdate u m.stateVal]) ∧
    (applyUpdate u m.stateVal = m.stateVal →
      (updateState u m).stateLog = m.stateLog) := by
  by_cases h2 : applyUpdate u m.stateVal = m.stateVal <;>
    simp [updateState, hopen, h2]

/-- Witness for C6 on a unit whose states are (reference, payload)
pairs: updating with a reference-distinct but payload-equal value does
re-emit (dedup is identity-based, not deep), while updating with the
identical value does not re-emit. -/
theorem update_identity_dedup_witness :
    (updateState (StUpdate.value (2, 42)) mC6).stateLog = [(2, 42)] ∧
    (updateState (StUpdate.value (1, 42)) mC6).stateLog = [] := by
  have h1 := update_identity_dedup mC6 (StUpdate.value (2, 42)) rfl
  have h2 := update_identity_dedup mC6 (StUpdate.value (1, 42)) rfl
  exact ⟨by simpa using h1.2.1 (by decide), by simpa using h2.2.2 (by decide)⟩

/-- C5, counterexample.  In the source-driven (pipe) variant the
source callback is `(value) => _stateSubject.next(value)`: a source
value identical to the current state is pushed again.  Concretely,
with initial state `5`, a source emission of the same `5` produces a
new emission on `state$`, refuting the claimed identity dedup. -/
theorem pipe_source_dedup_counterexample :
    (createPipeBlocM (5 : Nat)).stateVal = 5 ∧
    (createPipeBlocM (5 : Nat)).stateLog = [] ∧
    (sourceNext 5 (createPipeBlocM (5 : Nat))).stateLog = [5] := by
  refine ⟨rfl, rfl, ?_⟩
  simp [sourceNext, createPipeBlocM]

/-- C5, amended.  While the source subscription is alive, every value
produced by the source becomes the new state and is emitted on
`state$` unconditionally: the pipe variant applies no identity-based
deduplication (it bypasses `updateState` and calls the state subject
directly). -/
theorem pipe_source_no_dedup {St : Type} (m : PipeMachine St) (v : St)
    (hsub : m.sourceSubscribed = true) :
    (sourceNext v m).stateVal = v ∧
    (sourceNext v m).stateLog = m.stateLog ++ [v] := by
  simp [sourceNext, hsub]

/-- Witness for the amended C5 at a concrete input. -/
theorem pipe_source_no_dedup_witness :
    (sourceNext 7 (createPipeBlocM (7 : Nat))).stateLog = [7] ∧
    (sourceNext 7 (createPipeBlocM (7 : Nat))).stateVal = 7 := by
  have h := pipe_source_no_dedup (createPipeBlocM (7 : Nat)) 7 rfl
  exact ⟨by simpa using h.2, h.1⟩

/-- C4.  The `value` member of the handler context is a live getter
(`get value() { return _stateSubject.getValue() }`), not a stored
snapshot: a handler that reads it, updates the state with `s => s + 1`
and reads it again observes two different values (`0` then `1`) within
one execution, although the execution started at state `0`.  This
contradicts the snapshot-at-execution-start documentation of
`BlocContext.value` in `models/context.ts`. -/
theorem context_value_is_live :
    progReads probeProg mC4 = [0, 1] ∧ (0 : Nat) ≠ 1 := by
  exact ⟨rfl, by decide⟩

/-- C3, counterexample.  Latest-wins group over `Nat` state `0`: event
e1 (task id 0) will update the state to `10` after an awaited delay;
e2 (task id 1) arrives before that and will update to `20`.  The
dispatch of e2 makes task 1 the subscribed inner observable — task 0
is superseded/cancelled — yet when the scheduler later resumes task 0
its `update` still lands and `10` is the final state.  Post-
cancellation writes are not suppressed and can be the final state. -/
theorem restartable_suppression_counterexample :
    (rDispatch [fun _ => (20 : Nat)] (rDispatch [fun _ => 10] (rInit 0))).current
      = some 1 ∧
    (rStep 0 (rStep 1 (rDispatch [fun _ => (20 : Nat)]
      (rDispatch [fun _ => 10] (rInit 0))))).stateVal = 10 ∧
    (10 : Nat) ≠ 20 := by
  refine ⟨rfl, ?_, by decide⟩
  rfl

/-- C3, amended.  For a latest-wins identifier, dispatching e2 while
e1 is in flight unsubscribes e1's inner observable: e1 stops being the
current execution and its completion is never observed downstream
(only e2's is).  But the superseded handler itself is not stopped —
its promise chain remains live, and a state update it issues after the
cancellation still applies and can be the final state. -/
theorem restartable_cancellation_observational {St : Type} (s0 : St)
    (f g : St → St) :
    ((rDispatch [g] (rDispatch [f] (rInit s0))).current = some 1) ∧
    ((0, [f]) ∈ (rDispatch [g] (rDispatch [f] (rInit s0))).tasks) ∧
    ((rStep 0 (rStep 1 (rDispatch [g] (rDispatch [f] (rInit s0))))).stateVal
      = f (g s0)) ∧
    ((rStep 0 (rStep 1 (rDispatch [g] (rDispatch [f] (rInit s0))))).observedDone
      = [1]) := by
  refine ⟨rfl, ?_, ?_, ?_⟩
  · simp [rDispatch, rInit]
  · rfl
  · rfl

/-- C2.  For every dispatched event the registry is scanned in
insertion order and the first entry whose predicate accepts the event
is its unique match; an event accepted by no predicate changes no
state, emits nothing on `errors$`, enqueues no handler execution, and
produces exactly one diagnostic warning entry. -/
theorem first_match_routing_and_unhandled {Ev St Err : Type}
    (m : Machine Ev St Err) (e : Ev) (hopen : m.isClosed = false) :
    (∀ config, classify m.registry e = some config →
      config.predicate e = true ∧
      ∃ l1 l2, m.registry = l1 ++ config :: l2 ∧
        ∀ c ∈ l1, c.predicate e = false) ∧
    (classify m.registry e = none →
      (add e m).stateVal = m.stateVal ∧
      (add e m).stateLog = m.stateLog ∧
      (add e m).errorsLog = m.errorsLog ∧
      (add e m).pending = m.pending ∧
      (add e m).warnLog = m.warnLog ++ [Diag.unhandled e]) := by
  constructor
  · intro config h
    exact find?_first_match _ m.registry config h
  · intro hnone
    simp [add, hopen, hnone]

/-- Witness for C2: with two entries both accepting event `1`, the
first registered one wins; the unmatched event `7` leaves state and
errors untouched and logs one unhandled warning. -/
theorem first_match_routing_witness :
    classify mC2.registry 1 = some cfgFailW ∧
    cfgFailW.predicate 1 = true ∧
    (add 7 mC2).stateVal = 0 ∧
    (add 7 mC2).errorsLog = [] ∧
    (add 7 mC2).warnLog = [Diag.unhandled 7] := by
  have h1 := first_match_routing_and_unhandled mC2 1 rfl
  have h7 := first_match_routing_and_unhandled mC2 7 rfl
  refine ⟨rfl, (h1.1 cfgFailW rfl).1, ?_, ?_, ?_⟩
  · simpa using (h7.2 rfl).1
  · simpa using (h7.2 rfl).2.2.1
  · simpa using (h7.2 rfl).2.2.2.2

/-- C7.  `close()` is idempotent and terminal: the first call flips
`isClosed`, unsubscribes the pipeline, completes the state and error
streams and clears the registry while retaining the last state for the
synchronous getter; a second `close()` is the identity; `add` after
close only warns; and no operation ever clears the closed flag. -/
theorem close_idempotent_and_terminal {Ev St Err : Type} [DecidableEq St]
    (m : Machine Ev St Err) (e : Ev) (op : MOp Ev St Err)
    (hopen : m.isClosed = false) :
    (close m).isClosed = true ∧
    (close m).subscribed = false ∧
    (close m).stateCompleted = true ∧
    (close m).errorsCompleted = true ∧
    (close m).registry = [] ∧
    (close m).stateVal = m.stateVal ∧
    close (close m) = close m ∧
    add e (close m) =
      { close m with warnLog := (close m).warnLog ++ [Diag.addAfterClose] } ∧
    (applyOp op (close m)).isClosed = true := by
  have hc : close m =
      { m with
        isClosed := true
        subscribed := false
        stateCompleted := true
        errorsCompleted := true
        registry := [] } := by
    simp [close, hopen]
  refine ⟨by rw [hc], by rw [hc], by rw [hc], by rw [hc], by rw [hc],
    by rw [hc], ?_, ?_, applyOp_preserves_closed op _ (close_closed m)⟩
  · simp [close, hopen]
  · simp [add, close_closed]

/-- Witness for C7 at a concrete unit. -/
theorem close_idempotent_and_terminal_witness :
    (close mC1).isClosed = true ∧
    close (close mC1) = close mC1 ∧
    (close mC1).stateVal = 0 ∧
    (applyOp MOp.closeOp (close mC1)).isClosed = true ∧
    (add 2 (close mC1)).warnLog = [Diag.addAfterClose] := by
  have h := close_idempotent_and_terminal mC1 2 MOp.closeOp rfl
  exact ⟨h.1, h.2.2.2.2.2.2.1, h.2.2.2.2.2.1, h.2.2.2.2.2.2.2.2, rfl⟩

/-- C8.  An error escaping the classify/partition/strategy machinery
of the dispatch pipeline (the outer `catchError`) is emitted on
`errors$` with an absent event, the global `onError` callback is
invoked, and the unit is closed with all streams completed. -/
theorem stream_error_fatal {Ev St Err : Type} (m : Machine Ev St Err)
    (err : Err) (hopen : m.isClosed = false)
    (hne : m.errorsCompleted = false) :
    (streamFail err m).errorsLog = m.errorsLog ++ [(none, err)] ∧
    (streamFail err m).onErrorLog = m.onErrorLog ++ [(err, none)] ∧
    (streamFail err m).isClosed = true ∧
    (streamFail err m).subscribed = false ∧
    (streamFail err m).stateCompleted = true ∧
    (streamFail err m).errorsCompleted = true := by
  simp [streamFail, close, hopen, hne]

/-- Witness for C8 at a concrete unit. -/
theorem stream_error_fatal_witness :
    (streamFail "stream-broke" mC1).errorsLog = [(none, "stream-broke")] ∧
    (streamFail "stream-broke" mC1).isClosed = true ∧
    (streamFail "stream-broke" mC1).onErrorLog = [("stream-broke", none)] := by
  have h := stream_error_fatal mC1 "stream-broke" rfl rfl
  exact ⟨by simpa using h.1, h.2.2.1, by simpa using h.2.1⟩

/-- C10.  Dispatching a matched event never runs its handler during
the `add` call itself: `add` only schedules the execution as a
microtask (the handler body is behind `Promise.resolve().then`), so
the state, emission log, error log and diagnostics read synchronously
right after `add` are unchanged, and the handler runs only when the
microtask queue is drained. -/
theorem handler_deferred_to_microtask {Ev St Err : Type} [DecidableEq St]
    (m : Machine Ev St Err) (e : Ev) (config : HandlerConfig Ev St Err)
    (hopen : m.isClosed = false)
    (hcls : classify m.registry e = some config)
    (hpend : m.pending = []) :
    (add e m).stateVal = m.stateVal ∧
    (add e m).stateLog = m.stateLog ∧
    (add e m).errorsLog = m.errorsLog ∧
    (add e m).warnLog = m.warnLog ∧
    (add e m).pending = [(e, config)] ∧
    runNext (add e m) = runEvent e config m := by
  have ha := add_open_matched m e config hopen hcls
  refine ⟨by rw [ha], by rw [ha], by rw [ha], by rw [ha], ?_,
    runNext_add m e config hopen hcls hpend⟩
  rw [ha]
  show m.pending ++ [(e, config)] = [(e, config)]
  rw [hpend]
  rfl

/-- Witness for C10: a fully synchronous incrementing handler; the
state right after `add` is still `0`, and becomes `1` only once the
scheduled microtask runs. -/
theorem handler_deferred_to_microtask_witness :
    (add 3 mC10).stateVal = 0 ∧
    (runNext (add 3 mC10)).stateVal = 1 := by
  have h := handler_deferred_to_microtask mC10 3 cfgIncW rfl rfl rfl
  exact ⟨h.1, by rw [h.2.2.2.2.2]; rfl⟩

/-- C1.  A handler failure is caught at the level of that single
execution: `add` itself raises nothing and changes no error state
synchronously; once the deferred execution runs and its body throws,
an `(event, error)` record is emitted on `errors$` and the global
`onError` callback is invoked; the shared pipeline survives (still
subscribed, not closed) and a later matched event — for this or any
other identifier — is still enqueued for processing. -/
theorem handler_error_isolated {Ev St Err : Type} [DecidableEq St]
    (m m1 : Machine Ev St Err) (e e2 : Ev)
    (config config2 : HandlerConfig Ev St Err) (err : Err)
    (hopen : m.isClosed = false)
    (hpend : m.pending = [])
    (hcls : classify m.registry e = some config)
    (hrun : runProg (config.handler e) m = (m1, some err))
    (hne : m1.errorsCompleted = false)
    (hcls2 : classify m.registry e2 = some config2) :
    (add e m).errorsLog = m.errorsLog ∧
    (add e m).stateVal = m.stateVal ∧
    (runNext (add e m)).errorsLog = m1.errorsLog ++ [(some e, err)] ∧
    (runNext (add e m)).onErrorLog = m1.onErrorLog ++ [(err, some e)] ∧
    (runNext (add e m)).subscribed = m.subscribed ∧
    (runNext (add e m)).isClosed = false ∧
    (add e2 (runNext (add e m))).pending = [(e2, config2)] := by
  have ha := add_open_matched m e config hopen hcls
  have hr := runNext_add m e config hopen hcls hpend
  have he := runEvent_error e config m m1 err hrun
  have hframe := @runProg_frame Ev St Err _ (config.handler e) m
  rw [hrun] at hframe
  refine ⟨by rw [ha], by rw [ha], ?_, ?_, ?_, ?_, ?_⟩
  · rw [hr, he]
    simp [hne]
  · rw [hr, he]
  · rw [hr, he]
    exact hframe.2.2.2.2.1
  · rw [hr, he]
    show m1.isClosed = false
    rw [hframe.2.2.2.1]
    exact hopen
  · rw [hr, he]
    have hic : m1.isClosed = false := by rw [hframe.2.2.2.1]; exact hopen
    have hreg : m1.registry = m.registry := hframe.2.2.2.2.2.1
    have hpen : m1.pending = m.pending := hframe.2.2.2.2.2.2.1
    simp [add, hic, hreg, hcls2, hpen, hpend]

/-- Witness for C1: the handler for event `1` throws `"boom"`; the
record appears on `errors$`, the unit stays open, and a subsequent
event `2` is still enqueued and processed to completion. -/
theorem handler_error_isolated_witness :
    (add 1 mC1).errorsLog = [] ∧
    (runNext (add 1 mC1)).errorsLog = [(some 1, "boom")] ∧
    (runNext (add 1 mC1)).isClosed = false ∧
    (add 2 (runNext (add 1 mC1))).pending = [(2, cfgOkW)] ∧
    (runNext (add 2 (runNext (add 1 mC1)))).stateVal = 5 := by
  have h := handler_error_isolated mC1 mC1 1 2 cfgFailW cfgOkW "boom"
    rfl rfl rfl rfl rfl rfl
  exact ⟨h.1, by simpa using h.2.2.1, h.2.2.2.2.2.1, h.2.2.2.2.2.2, rfl⟩
